import Mathlib

/-!
Shallow embedding of the Task_Scheduler repository's two state machines:
the music playback controller (MusicPlayerProvider.tsx) and the Pomodoro
session controller (the Pomodoro page component).  React `useState` setters
are modelled by explicit state passing: each event handler is a function
from the render-time snapshot of the component state to the updated state;
all reads inside a handler come from the snapshot (React closures capture
the render-time values), while writes accumulate into the result.
-/

namespace TaskScheduler

/-! ## Playback controller data model (MusicPlayerProvider.tsx) -/

/-- An audio file handle; only the display name is observable state. -/
structure MusicFile where
  name : String
deriving DecidableEq, Repr, Inhabited

/-- The React state of `MusicPlayerProvider`: `playlist`, `currentIndex`,
`isPlaying`, `fileName`. -/
structure MusicState where
  playlist : List MusicFile
  currentIndex : Nat
  isPlaying : Bool
  fileName : String
deriving DecidableEq, Repr

/-- `loadPlaylist(files)`: no-op on an empty list; otherwise replaces the
playlist, resets the index to 0, shows the first file's name and stops
playback. -/
def loadPlaylist (files : List MusicFile) (s : MusicState) : MusicState :=
  match files with
  | [] => s
  | f :: _ =>
    { playlist := files, currentIndex := 0, fileName := f.name, isPlaying := false }

/-- `playCurrent()`: no-op when `playlist[currentIndex]` is undefined;
otherwise shows the song name and sets `isPlaying` to true. -/
def playCurrent (s : MusicState) : MusicState :=
  match s.playlist[s.currentIndex]? with
  | none => s
  | some song => { s with fileName := song.name, isPlaying := true }

/-- `pauseMusic()`: pauses the audio element (guarded) but sets
`isPlaying` to false unconditionally. -/
def pauseMusic (s : MusicState) : MusicState :=
  { s with isPlaying := false }

/-- `resumeMusic()`: plays the audio element (guarded) but sets
`isPlaying` to true unconditionally. -/
def resumeMusic (s : MusicState) : MusicState :=
  { s with isPlaying := true }

/-- `stopMusic()`: full teardown — stops playback and clears playlist,
index and file name. -/
def stopMusic (s : MusicState) : MusicState :=
  { s with isPlaying := false, fileName := "", playlist := [], currentIndex := 0 }

/-- The JavaScript index expression `(currentIndex - 1 + playlist.length) %
playlist.length`, computed over integers as in the source and converted
back to a natural number (the result is nonnegative whenever `n > 0`). -/
def prevIndexJs (i n : Nat) : Nat :=
  (((i : Int) - 1 + (n : Int)) % (n : Int)).toNat

/-- `nextSong()`: no-op on an empty playlist; otherwise advances the index
with wraparound, shows the new song's name and plays it. -/
def nextSong (s : MusicState) : MusicState :=
  if s.playlist.length = 0 then s
  else
    let nextIndex := (s.currentIndex + 1) % s.playlist.length
    let song := s.playlist.getD nextIndex default
    { s with currentIndex := nextIndex, fileName := song.name, isPlaying := true }

/-- `prevSong()`: no-op on an empty playlist; otherwise retreats the index
with wraparound, shows the new song's name and plays it. -/
def prevSong (s : MusicState) : MusicState :=
  if s.playlist.length = 0 then s
  else
    let prevIndex := prevIndexJs s.currentIndex s.playlist.length
    let song := s.playlist.getD prevIndex default
    { s with currentIndex := prevIndex, fileName := song.name, isPlaying := true }

/-- The `ended` event handler (`onEnd`): on a non-empty playlist, advance
to `currentIndex + 1` without wraparound if it is still in range, else just
set `isPlaying` to false; nothing happens on an empty playlist. -/
def onEnd (s : MusicState) : MusicState :=
  if s.playlist.length > 0 then
    let nextIndex := s.currentIndex + 1
    if nextIndex < s.playlist.length then
      let song := s.playlist.getD nextIndex default
      { s with currentIndex := nextIndex, fileName := song.name, isPlaying := true }
    else
      { s with isPlaying := false }
  else s

/-- Every playback operation exposed by the provider, including the
automatic end-of-media advance. -/
inductive MusicOp where
  | load (files : List MusicFile)
  | play
  | pause
  | resume
  | stop
  | next
  | prev
  | ended
deriving DecidableEq, Repr

/-- Dispatch of a playback operation to its handler. -/
def applyMusicOp (op : MusicOp) (s : MusicState) : MusicState :=
  match op with
  | .load files => loadPlaylist files s
  | .play => playCurrent s
  | .pause => pauseMusic s
  | .resume => resumeMusic s
  | .stop => stopMusic s
  | .next => nextSong s
  | .prev => prevSong s
  | .ended => onEnd s

/-- The playlist invariant: whenever the playlist is non-empty,
`currentIndex` is a valid index into it. -/
def musicInv (s : MusicState) : Prop :=
  s.playlist ≠ [] → s.currentIndex < s.playlist.length

instance (s : MusicState) : Decidable (musicInv s) := by
  unfold musicInv; infer_instance

/-! ### Basic lemmas about the playback operations -/

lemma nextSong_playlist (s : MusicState) : (nextSong s).playlist = s.playlist := by
  unfold nextSong
  split <;> rfl

lemma nextSong_index (s : MusicState) (h : s.playlist ≠ []) :
    (nextSong s).currentIndex = (s.currentIndex + 1) % s.playlist.length := by
  have h0 : ¬ s.playlist.length = 0 := by
    simpa [List.length_eq_zero] using h
  unfold nextSong
  simp [h0]

lemma prevSong_playlist (s : MusicState) : (prevSong s).playlist = s.playlist := by
  unfold prevSong
  split <;> rfl

lemma playCurrent_fields (s : MusicState) :
    (playCurrent s).playlist = s.playlist ∧
      (playCurrent s).currentIndex = s.currentIndex := by
  unfold playCurrent
  cases s.playlist[s.currentIndex]? <;> simp

lemma prevIndexJs_eq (i n : Nat) (hn : 0 < n) :
    prevIndexJs i n = (i + n - 1) % n := by
  unfold prevIndexJs
  have h1 : (i : Int) - 1 + (n : Int) = ((i + n - 1 : Nat) : Int) := by
    omega
  rw [h1, ← Int.natCast_mod, Int.toNat_natCast]

lemma prevSong_index (s : MusicState) (h : s.playlist ≠ []) :
    (prevSong s).currentIndex =
      (s.currentIndex + s.playlist.length - 1) % s.playlist.length := by
  have hn : 0 < s.playlist.length := List.length_pos.mpr h
  have h0 : ¬ s.playlist.length = 0 := by omega
  unfold prevSong
  simp [h0, prevIndexJs_eq _ _ hn]

/-! ### Arithmetic helpers for the wraparound index -/

lemma nat_prev_of_next (i n : Nat) (hn : 0 < n) (hi : i < n) :
    ((i + 1) % n + n - 1) % n = i := by
  rcases Nat.lt_or_ge (i + 1) n with h | h
  · rw [Nat.mod_eq_of_lt h]
    have h2 : i + 1 + n - 1 = i + n := by omega
    rw [h2, Nat.add_mod_right, Nat.mod_eq_of_lt hi]
  · have h1 : i + 1 = n := by omega
    rw [h1, Nat.mod_self]
    have h2 : 0 + n - 1 = i := by omega
    rw [h2, Nat.mod_eq_of_lt hi]

lemma nat_next_of_prev (i n : Nat) (hn : 0 < n) (hi : i < n) :
    ((i + n - 1) % n + 1) % n = i := by
  rcases Nat.eq_zero_or_pos i with h | h
  · subst h
    have h2 : 0 + n - 1 = n - 1 := by omega
    rw [h2, Nat.mod_eq_of_lt (show n - 1 < n by omega)]
    have h3 : n - 1 + 1 = n := by omega
    rw [h3, Nat.mod_self]
  · have h2 : i + n - 1 = (i - 1) + n := by omega
    rw [h2, Nat.add_mod_right, Nat.mod_eq_of_lt (show i - 1 < n by omega)]
    have h3 : i - 1 + 1 = i := by omega
    rw [h3, Nat.mod_eq_of_lt hi]

lemma nextSong_iterate (s : MusicState) (hne : s.playlist ≠ [])
    (hidx : s.currentIndex < s.playlist.length) (k : Nat) :
    (nextSong^[k] s).playlist = s.playlist ∧
      (nextSong^[k] s).currentIndex = (s.currentIndex + k) % s.playlist.length := by
  induction k with
  | zero =>
    simpa using (Nat.mod_eq_of_lt hidx).symm
  | succ k ih =>
    obtain ⟨hp, hi⟩ := ih
    have hne2 : (nextSong^[k] s).playlist ≠ [] := by rw [hp]; exact hne
    constructor
    · rw [Function.iterate_succ_apply', nextSong_playlist, hp]
    · rw [Function.iterate_succ_apply', nextSong_index _ hne2, hp, hi,
        Nat.mod_add_mod, Nat.add_assoc]

/-! ## Theorems about the playback controller -/

/-- The empty initial playback state of the provider. -/
def emptyMusic : MusicState :=
  { playlist := [], currentIndex := 0, isPlaying := false, fileName := "" }

/-- A one-song playlist state used as a concrete input. -/
def singletonMusic : MusicState :=
  { playlist := [{ name := "a" }], currentIndex := 0, isPlaying := false,
    fileName := "a" }

/-- A two-song playlist state positioned at its last index. -/
def twoSongMusic : MusicState :=
  { playlist := [{ name := "a" }, { name := "b" }], currentIndex := 1,
    isPlaying := true, fileName := "b" }

/-- C3 counterexample: with nothing loaded (the provider's initial state),
`resumeMusic` is not a no-op — it flips `isPlaying` to true. -/
theorem c3_counterexample : resumeMusic emptyMusic ≠ emptyMusic := by
  decide

/-- C3 (amended): with nothing loaded, `pauseMusic` and `resumeMusic`
leave `playlist`, `currentIndex` and `fileName` unchanged but set
`isPlaying` unconditionally to false resp. true; each is a no-op exactly
when `isPlaying` already has that value. -/
theorem c3_pause_resume_set_isPlaying (s : MusicState) (h : s.playlist = []) :
    (pauseMusic s).playlist = s.playlist ∧
    (pauseMusic s).currentIndex = s.currentIndex ∧
    (pauseMusic s).fileName = s.fileName ∧
    (pauseMusic s).isPlaying = false ∧
    (pauseMusic s = s ↔ s.isPlaying = false) ∧
    (resumeMusic s).playlist = s.playlist ∧
    (resumeMusic s).currentIndex = s.currentIndex ∧
    (resumeMusic s).fileName = s.fileName ∧
    (resumeMusic s).isPlaying = true ∧
    (resumeMusic s = s ↔ s.isPlaying = true) := by
  obtain ⟨pl, ci, ip, fn⟩ := s
  simp [pauseMusic, resumeMusic, MusicState.mk.injEq, eq_comm]

/-- C3 witness at the concrete empty state. -/
theorem c3_witness :
    emptyMusic.playlist = [] ∧
    (pauseMusic emptyMusic).isPlaying = false ∧
    (resumeMusic emptyMusic).isPlaying = true := by
  refine ⟨rfl, ?_, ?_⟩
  · exact (c3_pause_resume_set_isPlaying emptyMusic rfl).2.2.2.1
  · exact (c3_pause_resume_set_isPlaying emptyMusic rfl).2.2.2.2.2.2.2.2.1

/-- C5: at the last index of a non-empty playlist, the end-of-media
handler stops playback and keeps `currentIndex`, whereas manual
`nextSong` wraps to 0 and keeps playing; the two outcomes differ. -/
theorem c5_auto_advance_vs_next (s : MusicState)
    (hne : s.playlist ≠ []) (hlast : s.currentIndex = s.playlist.length - 1) :
    (onEnd s).isPlaying = false ∧
    (onEnd s).currentIndex = s.currentIndex ∧
    (nextSong s).currentIndex = 0 ∧
    (nextSong s).isPlaying = true ∧
    onEnd s ≠ nextSong s := by
  have hn : 0 < s.playlist.length := List.length_pos.mpr hne
  have h0 : ¬ s.playlist.length = 0 := by omega
  have hIdx : s.currentIndex + 1 = s.playlist.length := by omega
  have hEnd : onEnd s = { s with isPlaying := false } := by
    unfold onEnd
    simp [hn, hIdx]
  have hNextIdx : (nextSong s).currentIndex = 0 := by
    rw [nextSong_index s hne, hIdx, Nat.mod_self]
  have hNextPlay : (nextSong s).isPlaying = true := by
    unfold nextSong
    simp [h0]
  refine ⟨by rw [hEnd], by rw [hEnd], hNextIdx, hNextPlay, ?_⟩
  intro hcontra
  have := congrArg MusicState.isPlaying hcontra
  rw [hEnd, hNextPlay] at this
  simp at this

/-- C5 witness at a concrete two-song playlist positioned at the end. -/
theorem c5_witness :
    twoSongMusic.playlist ≠ [] ∧
    twoSongMusic.currentIndex = twoSongMusic.playlist.length - 1 ∧
    (onEnd twoSongMusic).isPlaying = false ∧
    (nextSong twoSongMusic).currentIndex = 0 := by
  have h := c5_auto_advance_vs_next twoSongMusic (by decide) (by decide)
  exact ⟨by decide, by decide, h.1, h.2.2.1⟩

/-- C6 counterexample: on a one-song playlist with playback paused,
`prevSong (nextSong s)` differs from `s` (both set `isPlaying` to true),
so `previous` is not the inverse of `next` on the whole state. -/
theorem c6_counterexample :
    prevSong (nextSong singletonMusic) ≠ singletonMusic := by
  decide

/-- C6 (amended): `prevSong` inverts `nextSong` on `currentIndex` only —
for every state whose playlist is empty or whose index is in range,
`prevSong (nextSong s)` and `nextSong (prevSong s)` restore
`currentIndex`; the full state is not restored in general, since both
operations set `isPlaying` and `fileName`. -/
theorem c6_prev_next_index_inverse (s : MusicState)
    (h : s.playlist = [] ∨ s.currentIndex < s.playlist.length) :
    (prevSong (nextSong s)).currentIndex = s.currentIndex ∧
    (nextSong (prevSong s)).currentIndex = s.currentIndex := by
  rcases h with h | h
  · have h0 : s.playlist.length = 0 := by rw [h]; rfl
    have hNext : nextSong s = s := by unfold nextSong; simp [h0]
    have hPrev : prevSong s = s := by unfold prevSong; simp [h0]
    simp [hNext, hPrev]
  · have hne : s.playlist ≠ [] := by
      intro hcontra
      rw [hcontra] at h
      simp at h
    have hn : 0 < s.playlist.length := List.length_pos.mpr hne
    constructor
    · have hne2 : (nextSong s).playlist ≠ [] := by
        rw [nextSong_playlist]; exact hne
      rw [prevSong_index _ hne2, nextSong_playlist, nextSong_index _ hne]
      exact nat_prev_of_next s.currentIndex s.playlist.length hn h
    · have hne2 : (prevSong s).playlist ≠ [] := by
        rw [prevSong_playlist]; exact hne
      rw [nextSong_index _ hne2, prevSong_playlist, prevSong_index _ hne]
      exact nat_next_of_prev s.currentIndex s.playlist.length hn h

/-- C6 witness at a concrete two-song playlist. -/
theorem c6_witness :
    twoSongMusic.currentIndex < twoSongMusic.playlist.length ∧
    (prevSong (nextSong twoSongMusic)).currentIndex = twoSongMusic.currentIndex ∧
    (nextSong (prevSong twoSongMusic)).currentIndex = twoSongMusic.currentIndex := by
  have h := c6_prev_next_index_inverse twoSongMusic (Or.inr (by decide))
  exact ⟨by decide, h.1, h.2⟩

/-- C7: on a non-empty playlist with a valid starting index, iterating
`nextSong` as many times as the playlist's length returns `currentIndex`
to its starting value. -/
theorem c7_next_cycles (s : MusicState) (hne : s.playlist ≠ [])
    (hidx : s.currentIndex < s.playlist.length) :
    (nextSong^[s.playlist.length] s).currentIndex = s.currentIndex := by
  have h := (nextSong_iterate s hne hidx s.playlist.length).2
  rw [h, Nat.add_mod_right, Nat.mod_eq_of_lt hidx]

/-- C7 witness: iterating twice over a two-song playlist restores the
index. -/
theorem c7_witness :
    twoSongMusic.playlist ≠ [] ∧
    (nextSong^[twoSongMusic.playlist.length] twoSongMusic).currentIndex =
      twoSongMusic.currentIndex := by
  exact ⟨by decide, c7_next_cycles twoSongMusic (by decide) (by decide)⟩

/-- C8: every playback operation preserves the invariant that
`currentIndex` is in range whenever the playlist is non-empty, and
`nextSong` / `prevSong` compute the new index by the wraparound formulas
`(i + 1) % n` and `(i - 1 + n) % n`. -/
theorem c8_ops_preserve_index_invariant :
    (∀ (op : MusicOp) (s : MusicState), musicInv s → musicInv (applyMusicOp op s)) ∧
    (∀ s : MusicState, s.playlist ≠ [] →
      (nextSong s).currentIndex = (s.currentIndex + 1) % s.playlist.length ∧
      (prevSong s).currentIndex =
        (s.currentIndex + s.playlist.length - 1) % s.playlist.length) := by
  constructor
  · intro op s h
    cases op with
    | load files =>
      cases files with
      | nil => exact h
      | cons f fs =>
        intro _
        simp [applyMusicOp, loadPlaylist]
    | play =>
      intro hne
      have hf := playCurrent_fields s
      simp only [applyMusicOp] at hne ⊢
      rw [hf.1] at hne
      rw [hf.1, hf.2]
      exact h hne
    | pause => intro hne; exact h hne
    | resume => intro hne; exact h hne
    | stop =>
      intro hne
      simp [applyMusicOp, stopMusic] at hne
    | next =>
      intro hne
      have hne0 : s.playlist ≠ [] := by
        intro hcontra
        rw [applyMusicOp, nextSong_playlist] at hne
        exact hne hcontra
      have hn : 0 < s.playlist.length := List.length_pos.mpr hne0
      rw [applyMusicOp, nextSong_playlist, nextSong_index _ hne0]
      exact Nat.mod_lt _ hn
    | prev =>
      intro hne
      have hne0 : s.playlist ≠ [] := by
        intro hcontra
        rw [applyMusicOp, prevSong_playlist] at hne
        exact hne hcontra
      have hn : 0 < s.playlist.length := List.length_pos.mpr hne0
      rw [applyMusicOp, prevSong_playlist, prevSong_index _ hne0]
      exact Nat.mod_lt _ hn
    | ended =>
      intro hne
      unfold applyMusicOp onEnd at hne ⊢
      by_cases hn : s.playlist.length > 0
      · simp only [hn, if_true] at hne ⊢
        by_cases hlt : s.currentIndex + 1 < s.playlist.length
        · simp [hlt]
        · simp only [hlt, if_false] at hne ⊢
          exact h hne
      · simp only [hn, if_false] at hne ⊢
        exact h hne
  · intro s hne
    exact ⟨nextSong_index s hne, prevSong_index s hne⟩

/-- C8 witness: the invariant holds after a concrete `nextSong`, and the
index formulas evaluate as stated on a concrete two-song playlist. -/
theorem c8_witness :
    musicInv (applyMusicOp MusicOp.next twoSongMusic) ∧
    (nextSong twoSongMusic).currentIndex =
      (twoSongMusic.currentIndex + 1) % twoSongMusic.playlist.length := by
  refine ⟨c8_ops_preserve_index_invariant.1 MusicOp.next twoSongMusic (by decide), ?_⟩
  exact (c8_ops_preserve_index_invariant.2 twoSongMusic (by decide)).1

/-! ## Pomodoro session controller data model (the Pomodoro page) -/

/-- `PomodoroSettings`: all durations in minutes. -/
structure PomodoroSettings where
  workDuration : Nat
  shortBreakDuration : Nat
  longBreakDuration : Nat
  longBreakInterval : Nat
deriving DecidableEq, Repr

/-- A task offered for optional linking. -/
structure PomTask where
  id : String
  title : String
deriving DecidableEq, Repr

/-- A completed-session record (`PomodoroSession`).  The `type` field is
kept as a string because persisted legacy records may carry the value
written as b-r-e-a-k, which the load path migrates. -/
structure PomodoroSession where
  id : Nat
  date : String
  type : String
  duration : Nat
  taskId : Option String
  taskTitle : String
deriving DecidableEq, Repr

/-- The React state of the Pomodoro page. -/
structure PomState where
  timeLeft : Nat
  isRunning : Bool
  isBreak : Bool
  isLongBreak : Bool
  selectedTaskId : Option String
  tasks : List PomTask
  history : List PomodoroSession
  sessionCount : Nat
  settings : PomodoroSettings
deriving DecidableEq, Repr

/-- Observable side effects of a Pomodoro handler: the notification tone
and the completion alert. -/
inductive PomEffect where
  | sound
  | alertMsg (message : String)
deriving DecidableEq, Repr

/-- `pauseTimer()`: clears the interval and sets `isRunning` to false. -/
def pauseTimer (s : PomState) : PomState :=
  { s with isRunning := false }

/-- The JavaScript truthiness coercion `selectedTaskId || undefined`
(a null or empty-string id becomes undefined). -/
def orUndefined (o : Option String) : Option String :=
  match o with
  | none => none
  | some t => if t = "" then none else some t

/-- `switchSession()` as invoked with render snapshot `snap`: all reads
(`isBreak`, `isLongBreak`, `settings`) come from the snapshot, while the
writes are applied on top of the updates `acc` accumulated so far in the
same event handler (React state setters batch; the state variables keep
their render-time values throughout the handler). -/
def switchSessionFrom (snap : PomState) (acc : PomState) : PomState :=
  if snap.isBreak then
    { acc with
      isBreak := false, isLongBreak := false,
      timeLeft := snap.settings.workDuration * 60 }
  else
    { acc with
      isBreak := true,
      timeLeft := (if snap.isLongBreak then snap.settings.longBreakDuration
        else snap.settings.shortBreakDuration) * 60 }

/-- `switchSession()` fired on its own. -/
def switchSession (s : PomState) : PomState :=
  switchSessionFrom s s

/-- `completeSession()`: pause, play the notification tone, prepend a
history record for the finished session, bump `sessionCount` (and set the
long-break flag at every `longBreakInterval`-th focus session), alert,
then call `switchSession()`.  `nowMs` and `nowIso` stand for the ambient
clock reads used for the record's `id` and `date`.  Note that the nested
`switchSession()` call still reads the render snapshot, so the break
duration it loads uses the pre-update `isLongBreak`. -/
def completeSession (nowMs : Nat) (nowIso : String) (s : PomState) :
    PomState × List PomEffect :=
  let selectedTask := s.tasks.find? (fun t => (some t.id : Option String) == s.selectedTaskId)
  let sessionDuration :=
    if s.isBreak then
      (if s.isLongBreak then s.settings.longBreakDuration else s.settings.shortBreakDuration)
    else s.settings.workDuration
  let newSession : PomodoroSession :=
    { id := nowMs, date := nowIso,
      type := if s.isBreak then (if s.isLongBreak then "long_break" else "short_break")
        else "focus",
      duration := sessionDuration,
      taskId := orUndefined s.selectedTaskId,
      taskTitle := match selectedTask with
        | some t => t.title
        | none => "No task linked" }
  let acc1 := { pauseTimer s with history := newSession :: s.history }
  let acc2 :=
    if s.isBreak then acc1
    else
      let newSessionCount := s.sessionCount + 1
      let acc := { acc1 with sessionCount := newSessionCount }
      if newSessionCount % s.settings.longBreakInterval == 0 then
        { acc with isLongBreak := true }
      else acc
  let msg :=
    if s.isBreak then "Break complete! Time to focus."
    else if s.isLongBreak then "Great! Long break complete."
    else "Focus session complete! Take a break."
  (switchSessionFrom s acc2, [PomEffect.sound, PomEffect.alertMsg msg])

/-- The Skip button's `onClick` handler: pause, then jump straight to the
complementary mode.  From a focus session it computes the long/short
decision locally (`isLongBreakNext`) and uses it both for the loaded
duration and the flag; it writes no history record and plays no tone. -/
def skipClick (s : PomState) : PomState × List PomEffect :=
  let paused := pauseTimer s
  if s.isBreak then
    ({ paused with
       isLongBreak := false,
       timeLeft := s.settings.workDuration * 60, isBreak := false }, [])
  else
    let newSessionCount := s.sessionCount + 1
    let isLongBreakNext := newSessionCount % s.settings.longBreakInterval == 0
    let breakDuration :=
      if isLongBreakNext then s.settings.longBreakDuration
      else s.settings.shortBreakDuration
    ({ paused with
       timeLeft := breakDuration * 60, isLongBreak := isLongBreakNext,
       sessionCount := newSessionCount, isBreak := true }, [])

/-- The `pomodoroSettingsChanged` event handler: replace `settings`; when
the timer is not running, reset `timeLeft` to the new `workDuration * 60`
(unconditionally the work duration, whatever the current mode). -/
def handleSettingsChange (newSettings : PomodoroSettings) (s : PomState) : PomState :=
  let s1 := { s with settings := newSettings }
  if s.isRunning then s1 else { s1 with timeLeft := newSettings.workDuration * 60 }

/-- The settings-fetch success path: when the response carries
`pomodoroSettings`, apply the same update as the change handler. -/
def fetchSettingsApply (pomodoroSettings : Option PomodoroSettings) (s : PomState) :
    PomState :=
  match pomodoroSettings with
  | none => s
  | some ps =>
    let s1 := { s with settings := ps }
    if s.isRunning then s1 else { s1 with timeLeft := ps.workDuration * 60 }

/-- The per-record history migration applied on load: a record whose type
is the legacy tag is rewritten to the short-break tag, all other fields
kept; any other record passes through unchanged. -/
def migrateRecord (r : PomodoroSession) : PomodoroSession :=
  if r.type = "break" then { r with type := "short_break" } else r

/-- The history load path maps the migration over the parsed list. -/
def migrateHistory (l : List PomodoroSession) : List PomodoroSession :=
  l.map migrateRecord

/-! ## Concrete Pomodoro states used as inputs -/

/-- The default settings the page starts with. -/
def defaultSettings : PomodoroSettings :=
  { workDuration := 25, shortBreakDuration := 5, longBreakDuration := 15,
    longBreakInterval := 4 }

/-- An updated settings value with all durations changed. -/
def newSettingsSample : PomodoroSettings :=
  { workDuration := 30, shortBreakDuration := 10, longBreakDuration := 20,
    longBreakInterval := 4 }

/-- A paused short-break state. -/
def shortBreakPaused : PomState :=
  { timeLeft := 300, isRunning := false, isBreak := true, isLongBreak := false,
    selectedTaskId := none, tasks := [], history := [], sessionCount := 1,
    settings := defaultSettings }

/-- A running focus state one completion away from the long-break
threshold (`sessionCount = 3`, interval 4). -/
def focusBeforeLong : PomState :=
  { timeLeft := 1, isRunning := true, isBreak := false, isLongBreak := false,
    selectedTaskId := none, tasks := [], history := [], sessionCount := 3,
    settings := defaultSettings }

/-- A legacy persisted record carrying the old break type tag. -/
def legacyRecord : PomodoroSession :=
  { id := 1, date := "2020-01-01T00:00:00.000Z", type := "break",
    duration := 5, taskId := none, taskTitle := "No task linked" }

/-- A record already in the current format. -/
def focusRecord : PomodoroSession :=
  { id := 2, date := "2020-01-02T00:00:00.000Z", type := "focus",
    duration := 25, taskId := some "t1", taskTitle := "Write spec" }

/-! ## Theorems about the Pomodoro controller -/

/-- C1 counterexample: in a paused short-break state, a settings update
sets `timeLeft` to the new `workDuration * 60` (1800), not to the new
`shortBreakDuration * 60` (600) as the claim states. -/
theorem c1_counterexample :
    shortBreakPaused.isRunning = false ∧
    shortBreakPaused.isBreak = true ∧
    shortBreakPaused.isLongBreak = false ∧
    (handleSettingsChange newSettingsSample shortBreakPaused).timeLeft = 1800 ∧
    (handleSettingsChange newSettingsSample shortBreakPaused).timeLeft ≠
      newSettingsSample.shortBreakDuration * 60 := by
  decide

/-- C1 (amended): a settings update while the timer is not running —
through either the fetch path or the settings-changed notification —
replaces `settings` and resets `timeLeft` to the new `workDuration * 60`
regardless of the current mode. -/
theorem c1_settings_update_loads_work_duration (s : PomState)
    (ns : PomodoroSettings) (h : s.isRunning = false) :
    (handleSettingsChange ns s).settings = ns ∧
    (handleSettingsChange ns s).timeLeft = ns.workDuration * 60 ∧
    (fetchSettingsApply (some ns) s).settings = ns ∧
    (fetchSettingsApply (some ns) s).timeLeft = ns.workDuration * 60 := by
  simp [handleSettingsChange, fetchSettingsApply, h]

/-- C1 witness at the concrete paused short-break state. -/
theorem c1_witness :
    shortBreakPaused.isRunning = false ∧
    (handleSettingsChange newSettingsSample shortBreakPaused).settings =
      newSettingsSample ∧
    (handleSettingsChange newSettingsSample shortBreakPaused).timeLeft =
      newSettingsSample.workDuration * 60 := by
  have h := c1_settings_update_loads_work_duration shortBreakPaused
    newSettingsSample rfl
  exact ⟨rfl, h.1, h.2.1⟩

/-- C2: completing the focus session that reaches the long-break
threshold switches to a break flagged as long without auto-starting and
bumps `sessionCount`, but loads the SHORT break duration: the nested
`switchSession()` reads the render snapshot's `isLongBreak`, not the
value just set by `setIsLongBreak(true)`.  This contradicts the claim
(and the spec's stated intent) that the new mode's duration is chosen
with the just-updated decision. -/
theorem c2_complete_session_loads_stale_break_duration :
    ((completeSession 0 "2026-01-01T00:00:00.000Z" focusBeforeLong).1.isBreak
        = true) ∧
    ((completeSession 0 "2026-01-01T00:00:00.000Z" focusBeforeLong).1.isLongBreak
        = true) ∧
    ((completeSession 0 "2026-01-01T00:00:00.000Z" focusBeforeLong).1.isRunning
        = false) ∧
    ((completeSession 0 "2026-01-01T00:00:00.000Z" focusBeforeLong).1.sessionCount
        = 4) ∧
    ((completeSession 0 "2026-01-01T00:00:00.000Z" focusBeforeLong).1.timeLeft
        = focusBeforeLong.settings.shortBreakDuration * 60) ∧
    ((completeSession 0 "2026-01-01T00:00:00.000Z" focusBeforeLong).1.timeLeft
        ≠ focusBeforeLong.settings.longBreakDuration * 60) := by
  decide

/-- C4: skipping a running focus session pauses the timer, writes no
history record, emits no effect (in particular no notification tone),
switches to a break, and the break is long with the long duration loaded
exactly when `(sessionCount + 1) % longBreakInterval = 0`; otherwise it
is a short break with the short duration loaded. -/
theorem c4_skip_focus_selection (s : PomState)
    (_hr : s.isRunning = true) (hb : s.isBreak = false) :
    (skipClick s).1.isRunning = false ∧
    (skipClick s).1.history = s.history ∧
    (skipClick s).2 = [] ∧
    (skipClick s).1.isBreak = true ∧
    (((skipClick s).1.isLongBreak = true ∧
        (skipClick s).1.timeLeft = s.settings.longBreakDuration * 60) ↔
      (s.sessionCount + 1) % s.settings.longBreakInterval = 0) ∧
    ((s.sessionCount + 1) % s.settings.longBreakInterval ≠ 0 →
      (skipClick s).1.isLongBreak = false ∧
      (skipClick s).1.timeLeft = s.settings.shortBreakDuration * 60) := by
  by_cases hc : (s.sessionCount + 1) % s.settings.longBreakInterval = 0
  · simp [skipClick, pauseTimer, hb, hc]
  · simp [skipClick, pauseTimer, hb, hc]

/-- C4 witness at the concrete running focus state at the threshold. -/
theorem c4_witness :
    focusBeforeLong.isRunning = true ∧
    focusBeforeLong.isBreak = false ∧
    (skipClick focusBeforeLong).1.history = focusBeforeLong.history ∧
    (skipClick focusBeforeLong).2 = [] ∧
    (skipClick focusBeforeLong).1.isBreak = true := by
  have h := c4_skip_focus_selection focusBeforeLong rfl rfl
  exact ⟨rfl, rfl, h.2.1, h.2.2.1, h.2.2.2.1⟩

/-- C9: loading persisted history maps each record through the
migration: a record with the legacy break tag comes out with the
short-break tag and no other field altered (a pure record update of
`type`), and any other record comes out unchanged. -/
theorem c9_history_migration (l : List PomodoroSession) (i : Nat)
    (r : PomodoroSession) (h : l[i]? = some r) :
    (migrateHistory l)[i]? = some (migrateRecord r) ∧
    (r.type = "break" → migrateRecord r = { r with type := "short_break" }) ∧
    (r.type ≠ "break" → migrateRecord r = r) := by
  refine ⟨?_, ?_, ?_⟩
  · simp [migrateHistory, h]
  · intro ht
    simp [migrateRecord, ht]
  · intro ht
    simp [migrateRecord, ht]

/-- C9 witness on a concrete two-record persisted list: the legacy record
is rewritten to the short-break tag with every other field kept, the
other record is untouched. -/
theorem c9_witness :
    [legacyRecord, focusRecord][0]? = some legacyRecord ∧
    (migrateHistory [legacyRecord, focusRecord])[0]? =
      some (migrateRecord legacyRecord) ∧
    (migrateHistory [legacyRecord, focusRecord])[1]? =
      some (migrateRecord focusRecord) ∧
    migrateRecord legacyRecord = { legacyRecord with type := "short_break" } ∧
    migrateRecord focusRecord = focusRecord := by
  have h0 := c9_history_migration [legacyRecord, focusRecord] 0 legacyRecord rfl
  have h1 := c9_history_migration [legacyRecord, focusRecord] 1 focusRecord rfl
  exact ⟨rfl, h0.1, h1.1, h0.2.1 (by decide), h1.2.2 (by decide)⟩

/-- C10: skipping a running focus session increments `sessionCount` by
exactly one, the same as natural completion does, while writing no
history record — so skipped focus sessions count toward the long-break
interval. -/
theorem c10_skip_increments_session_count (s : PomState)
    (nowMs : Nat) (nowIso : String)
    (_hr : s.isRunning = true) (hb : s.isBreak = false) :
    (skipClick s).1.sessionCount = s.sessionCount + 1 ∧
    (completeSession nowMs nowIso s).1.sessionCount = s.sessionCount + 1 ∧
    (skipClick s).1.history = s.history := by
  refine ⟨?_, ?_, ?_⟩
  · simp [skipClick, pauseTimer, hb]
  · by_cases hc : (s.sessionCount + 1) % s.settings.longBreakInterval = 0
    · simp [completeSession, pauseTimer, switchSessionFrom, hb, hc]
    · simp [completeSession, pauseTimer, switchSessionFrom, hb, hc]
  · simp [skipClick, pauseTimer, hb]

/-- C10 witness at the concrete running focus state. -/
theorem c10_witness :
    focusBeforeLong.isRunning = true ∧
    (skipClick focusBeforeLong).1.sessionCount =
      focusBeforeLong.sessionCount + 1 ∧
    (completeSession 0 "2026-01-01T00:00:00.000Z" focusBeforeLong).1.sessionCount =
      focusBeforeLong.sessionCount + 1 := by
  have h := c10_skip_increments_session_count focusBeforeLong 0
    "2026-01-01T00:00:00.000Z" rfl rfl
  exact ⟨rfl, h.1, h.2.1⟩

end TaskScheduler
